import Mathlib

/-!
Shallow embedding of the HTTP request/response pipeline of the embedded
Lacework API client (`vendor/github.com/lacework/go-sdk/api/http.go`):
request construction (`NewRequest`), transport execution (`Do`), response
decoding (`DoDecoder`, `RequestDecoder`) and the debug body sniffers.

Go side effects are made explicit: the mutable client state is passed and
returned, network results are supplied as oracle inputs, and observable
calls (token regeneration, callbacks, decode attempts) are recorded in an
event trace.  Byte strings are modelled as Lean `String`s.
-/

namespace Lacework

/-- An `io.ReadCloser` body stream: its byte content together with flags
saying whether reading it to the end (`ioutil.ReadAll`) or closing it
(`Close`) fails. -/
structure BodyStream where
  content : String
  readErr : Bool
  closeErr : Bool
deriving Repr, DecidableEq

/-- Model of `ioutil.ReadAll` on a body stream: the full content, unless the stream
fails on read. -/
def readAll (b : BodyStream) : Except Unit String :=
  if b.readErr then .error () else .ok b.content

/-- Model of `Close` on a body stream. -/
def closeStream (b : BodyStream) : Except Unit Unit :=
  if b.closeErr then .error () else .ok ()

/-- Model of `ioutil.NopCloser(bytes.NewBuffer(bodyBytes))`: a fresh in-memory stream
holding the captured bytes; reading and closing it cannot fail. -/
def nopCloser (bytes : String) : BodyStream :=
  { content := bytes, readErr := false, closeErr := false }

/-- Go `http.Header` modelled as an association list; `headerSet` gives it the
replace-on-set map semantics of Go's `Header.Set`. -/
abbrev HeaderMap := List (String × String)

/-- Go `Header.Set k v`: replaces any existing values for key `k` with `v`. -/
def headerSet (h : HeaderMap) (k v : String) : HeaderMap :=
  (k, v) :: List.filter (fun p => p.1 ≠ k) h

/-- Go `Header.Get k`: the value stored for key `k`, if any. -/
def headerGet : HeaderMap → String → Option String
  | [], _ => none
  | p :: rest, k => if p.1 = k then some p.2 else headerGet rest k

/-- Go loop `for k, v := range m \x7b h.Set(k, v) \x7d`: apply `headerSet` for every entry
of `entries` in order. -/
def setAll (h : HeaderMap) (entries : List (String × String)) : HeaderMap :=
  entries.foldl (fun acc p => headerSet acc p.1 p.2) h

/-- An `*http.Request` as built by `NewRequest`: method, resolved URL
(identified here by the relative API path), headers and optional body. -/
structure HttpRequest where
  method : String
  url : String
  header : HeaderMap
  body : Option BodyStream
deriving Repr, DecidableEq

/-- An `*http.Response`: status code, headers, body stream, content length,
and whether the body carries the vendor error envelope (the envelope's exact
JSON shape is vendor-defined; only its presence matters here). -/
structure HttpResponse where
  statusCode : Nat
  header : HeaderMap
  body : Option BodyStream
  contentLength : Int
  errorEnvelope : Bool
deriving Repr, DecidableEq

/-- The client's authentication state: the long-lived secret and the derived
token with its expiry instant (an abstract integer timestamp). -/
structure Auth where
  secret : String
  token : String
  expiry : Int
deriving Repr, DecidableEq

/-- The client.  The two optional callbacks are summarized by whether they
are registered and, if so, whether invoking them returns an error
(`some b` = registered, errs iff `b`); their arguments are recorded in the
event trace instead. -/
structure Client where
  auth : Auth
  headers : List (String × String)
  tokenExpiredCallback : Option Bool
  requestCallback : Option Bool
  debug : Bool
deriving Repr, DecidableEq

/-- Observable calls made by the pipeline, in order. -/
inductive Event where
  | tokenExpiredCallbackCall
  | generateTokenCall
  | requestCallbackCall (status : Nat) (headers : HeaderMap)
  | decodeAttempt
  | copyToWriter
deriving Repr, DecidableEq

/-- Go `sniffBody`: read the whole body, close the original stream, and return
a fresh re-readable stream over the captured bytes plus the bytes as text;
on read or close failure return an absent stream and the empty string. -/
def sniffBody (body : BodyStream) : Option BodyStream × String :=
  match readAll body with
  | .error _ => (none, "")
  | .ok bodyBytes =>
    match closeStream body with
    | .error _ => (none, "")
    | .ok _ => (some (nopCloser bodyBytes), bodyBytes)

/-- Go `c.debugMode()`. -/
def debugMode (c : Client) : Bool := c.debug

/-- Go `httpRequestBodySniffer`: sniff the request body for logging, replacing
`r.Body` with the sniffer's replacement stream; suppressed outside debug
mode, skipped for absent bodies (`nil` or `http.NoBody`, both modelled as
`none`). -/
def httpRequestBodySniffer (c : Client) (r : HttpRequest) : HttpRequest × String :=
  if ¬ debugMode c then (r, "suppressed")
  else
    match r.body with
    | none => (r, "")
    | some b =>
      ({ r with body := (sniffBody b).1 }, (sniffBody b).2)

/-- Go `httpResponseBodySniffer`: sniff the response body for logging, replacing
`r.Body`; suppressed outside debug mode, skipped when the body is absent or
the content length is zero. -/
def httpResponseBodySniffer (c : Client) (r : HttpResponse) : HttpResponse × String :=
  if ¬ debugMode c then (r, "suppressed")
  else
    match r.body with
    | none => (r, "")
    | some b =>
      if r.contentLength = 0 then (r, "")
      else ({ r with body := (sniffBody b).1 }, (sniffBody b).2)

instance {ε α : Type} [DecidableEq ε] [DecidableEq α] : DecidableEq (Except ε α) := fun x y =>
  match x, y with
  | .ok a, .ok b =>
    if h : a = b then isTrue (by rw [h]) else isFalse (by simp [h])
  | .error a, .error b =>
    if h : a = b then isTrue (by rw [h]) else isFalse (by simp [h])
  | .ok _, .error _ => isFalse (by simp)
  | .error _, .ok _ => isFalse (by simp)

/-- Modelled from the spec: the token-issuance endpoint path constant
`apiTokens` is declared outside `src/`; `NewRequest` only compares the
requested path against it, so any distinguished string is faithful. -/
def apiTokens : String := "access/tokens"

/-- Modelled from the spec: `TokenExpired` is declared outside `src/`; the
spec says the Token Manager "exposes whether the currently held token is
expired (based on a stored expiry instant compared to current time)". -/
def TokenExpired (c : Client) (now : Int) : Bool := c.auth.expiry ≤ now

/-- Oracle inputs for `NewRequest`: whether `url.Parse` and
`http.NewRequest` succeed (their URL mechanics are external library code),
and the outcome of the token-issuance network call made by `GenerateToken`.
Modelled from the spec: `GenerateToken` is declared outside `src/`; the spec
says regeneration "replaces both the token value and its expiry" on success
and "failure leaves the previous token/expiry state untouched and propagates
the error". -/
structure NewReqEnv where
  parseOk : Bool
  newRequestOk : Bool
  genToken : Except String (String × Int)
deriving Repr, DecidableEq

/-- Outcome of `NewRequest`: the built request or an error, the (possibly
token-refreshed) client, and the trace of observable calls. -/
structure NewRequestResult where
  result : Except String HttpRequest
  client : Client
  events : List Event
deriving Repr, DecidableEq

/-- The first two headers set by `NewRequest`: `Method` and `Accept`. -/
def baseHeaders (method : String) : List (String × String) :=
  [("Method", method), ("Accept", "application/json")]

/-- Header `Content-Type: application/json`, set only when a body is present. -/
def contentTypeHeader (body : Option BodyStream) : List (String × String) :=
  if body.isSome then [("Content-Type", "application/json")] else []

/-- Final request assembly in `NewRequest`: apply the computed headers, then
all caller-configured global headers, then sniff the request body for the
debug log (`httpRequestBodySniffer` runs unconditionally as a log argument
and replaces `request.Body` in debug mode).  The query-string re-encode step
touches only external `url.URL` state and is not modelled. -/
def buildRequest (c : Client) (method apiURL : String) (body : Option BodyStream)
    (computed : List (String × String)) : HttpRequest :=
  let request : HttpRequest :=
    { method := method, url := apiURL
      header := setAll (setAll [] computed) c.headers, body := body }
  (httpRequestBodySniffer c request).1

/-- Go `Client.NewRequest`: build an outbound request.  The token-issuance
endpoint authenticates with the raw secret in `X-LW-UAKS`; every other
endpoint first regenerates the token if it is empty or expired (firing the
token-expired callback when registered and the token is expired) and sets
`Authorization` to the held token. -/
def NewRequest (c : Client) (now : Int) (env : NewReqEnv) (method apiURL : String)
    (body : Option BodyStream) : NewRequestResult :=
  if env.parseOk = false then ⟨.error "url parse error", c, []⟩
  else if env.newRequestOk = false then ⟨.error "http request error", c, []⟩
  else if apiURL = apiTokens then
    let computed := baseHeaders method ++ [("X-LW-UAKS", c.auth.secret)]
      ++ contentTypeHeader body
    ⟨.ok (buildRequest c method apiURL body computed), c, []⟩
  else if c.auth.token = "" ∨ TokenExpired c now = true then
    let callbackEvents :=
      if c.tokenExpiredCallback.isSome ∧ TokenExpired c now = true then
        [Event.tokenExpiredCallbackCall]
      else []
    match env.genToken with
    | .error e => ⟨.error e, c, callbackEvents ++ [Event.generateTokenCall]⟩
    | .ok (newToken, newExpiry) =>
      let refreshed : Client :=
        { c with auth := { c.auth with token := newToken, expiry := newExpiry } }
      let computed := baseHeaders method
        ++ [("Authorization", refreshed.auth.token)] ++ contentTypeHeader body
      ⟨.ok (buildRequest refreshed method apiURL body computed), refreshed,
        callbackEvents ++ [Event.generateTokenCall]⟩
  else
    let computed := baseHeaders method ++ [("Authorization", c.auth.token)]
      ++ contentTypeHeader body
    ⟨.ok (buildRequest c method apiURL body computed), c, []⟩

/-- What the underlying `http.Client.Do` returned: either a response with a
nil error, or a non-nil error possibly accompanied by a response (as with
redirect-check failures).  The `(nil, nil)` pair is excluded by the
`http.Client` contract. -/
inductive TransportResult where
  | success (r : HttpResponse)
  | failure (r : Option HttpResponse) (e : String)
deriving Repr, DecidableEq

/-- The response carried by a transport result, if any. -/
def transportResponse : TransportResult → Option HttpResponse
  | .success r => some r
  | .failure r _ => r

/-- Outcome of `Client.Do`. -/
structure DoResult where
  response : Option HttpResponse
  err : Option String
  events : List Event
deriving Repr, DecidableEq

/-- Go `Client.Do`: run the transport; on a nil error, log the response (which
sniffs its body in debug mode); then invoke the request callback with the
response's status code and headers whenever a response is present and a
callback is registered (callback errors are only logged). -/
def Do (c : Client) (t : TransportResult) : DoResult :=
  match t with
  | .success r =>
    let logged := (httpResponseBodySniffer c r).1
    { response := some logged, err := none
      events :=
        match c.requestCallback with
        | some _ => [Event.requestCallbackCall logged.statusCode logged.header]
        | none => [] }
  | .failure r? e =>
    { response := r?, err := some e
      events :=
        match c.requestCallback, r? with
        | some _, some r => [Event.requestCallbackCall r.statusCode r.header]
        | _, _ => [] }

/-- Modelled from the spec: `checkErrorInResponse` is declared outside
`src/`; the spec says the decode pipeline "inspects the response for an
API-level error condition (non-2xx status or a vendor error envelope in the
body)". -/
def checkErrorInResponse (r : HttpResponse) : Option String :=
  if r.statusCode < 200 ∨ 300 ≤ r.statusCode then some "api error: non-2xx status"
  else if r.errorEnvelope then some "api error: vendor error envelope"
  else none

/-- The destination argument `v` of `DoDecoder`: Go `nil`, an `io.Writer`
(raw bytes are copied into it), or a JSON-decode target holding the decoded
document once written. -/
inductive Dest where
  | vnil
  | writer (sink : String)
  | value (contents : Option String)
deriving Repr, DecidableEq

/-- Reading the response body to the end (`io.Copy` / `json.Decode` input);
an absent body reads as empty. -/
def readBody (r : HttpResponse) : Except Unit String :=
  match r.body with
  | none => .ok ""
  | some b => readAll b

/-- Outcome of `Client.DoDecoder`. -/
structure DoDecoderResult where
  response : Option HttpResponse
  err : Option String
  dest : Dest
  events : List Event
deriving Repr, DecidableEq

/-- Go `Client.DoDecoder`: run `Do`, short-circuit HTTP 204, check for an
API-level error, then (for a non-nil destination) copy the body to a writer
destination or JSON-decode it into a value destination.  `decode` abstracts
`json.Decode` on the body bytes; on a decode error Go leaves the destination
in an unspecified partially-written state, modelled here as unchanged (no
theorem relies on that corner). -/
def DoDecoder (c : Client) (t : TransportResult) (decode : String → Except String String)
    (v : Dest) : DoDecoderResult :=
  let d := Do c t
  match d.err with
  | some e => { response := none, err := some e, dest := v, events := d.events }
  | none =>
    match d.response with
    | none => { response := none, err := none, dest := v, events := d.events }
    | some res =>
      if res.statusCode = 204 then
        { response := some res, err := none, dest := v, events := d.events }
      else
        match checkErrorInResponse res with
        | some e => { response := some res, err := some e, dest := v, events := d.events }
        | none =>
          match v with
          | .vnil => { response := some res, err := none, dest := v, events := d.events }
          | .writer sink =>
            match readBody res with
            | .error _ =>
              { response := some res, err := some "copy error", dest := .writer sink
                events := d.events ++ [Event.copyToWriter] }
            | .ok bytes =>
              { response := some res, err := none, dest := .writer (sink ++ bytes)
                events := d.events ++ [Event.copyToWriter] }
          | .value old =>
            match readBody res with
            | .error _ =>
              { response := some res, err := some "read error", dest := .value old
                events := d.events ++ [Event.decodeAttempt] }
            | .ok bytes =>
              match decode bytes with
              | .ok doc =>
                { response := some res, err := none, dest := .value (some doc)
                  events := d.events ++ [Event.decodeAttempt] }
              | .error e =>
                { response := some res, err := some e, dest := .value old
                  events := d.events ++ [Event.decodeAttempt] }

/-- Outcome of `Client.RequestDecoder`; `bodyClosed` records whether
`res.Body.Close()` ran before returning. -/
structure RequestDecoderResult where
  err : Option String
  dest : Dest
  bodyClosed : Bool
  events : List Event
deriving Repr, DecidableEq

/-- Go `Client.RequestDecoder`: build the request, run `DoDecoder`, and return.
The Go code returns immediately when `DoDecoder` errs and only then defers
`res.Body.Close()`, so the body is closed only on the nil-error path. -/
def RequestDecoder (c : Client) (now : Int) (env : NewReqEnv) (t : TransportResult)
    (decode : String → Except String String) (method path : String)
    (body : Option BodyStream) (v : Dest) : RequestDecoderResult :=
  let n := NewRequest c now env method path body
  match n.result with
  | .error e => { err := some e, dest := v, bodyClosed := false, events := n.events }
  | .ok _request =>
    let d := DoDecoder n.client t decode v
    match d.err with
    | some e =>
      { err := some e, dest := d.dest, bodyClosed := false, events := n.events ++ d.events }
    | none =>
      { err := none, dest := d.dest, bodyClosed := d.response.isSome
        events := n.events ++ d.events }

/-- Extract the request of a successful `NewRequest` result. -/
def okRequest (r : NewRequestResult) : Option HttpRequest :=
  match r.result with
  | .ok req => some req
  | .error _ => none

/-- Whether an `Except` result is a success. -/
def exceptOk (r : Except String HttpRequest) : Bool :=
  match r with
  | .ok _ => true
  | .error _ => false

/-- A header value of the request built by `NewRequest`, when one was built. -/
def resultHeader (r : NewRequestResult) (k : String) : Option String :=
  match okRequest r with
  | some req => headerGet req.header k
  | none => none

/-! Helper lemmas. -/

@[simp] lemma respSniffer_statusCode (c : Client) (r : HttpResponse) :
    ((httpResponseBodySniffer c r).1).statusCode = r.statusCode := by
  unfold httpResponseBodySniffer
  split
  · rfl
  · cases hb : r.body with
    | none => rfl
    | some b =>
      by_cases hcl : r.contentLength = 0 <;> simp [hcl]

@[simp] lemma respSniffer_header (c : Client) (r : HttpResponse) :
    ((httpResponseBodySniffer c r).1).header = r.header := by
  unfold httpResponseBodySniffer
  split
  · rfl
  · cases hb : r.body with
    | none => rfl
    | some b =>
      by_cases hcl : r.contentLength = 0 <;> simp [hcl]

@[simp] lemma respSniffer_errorEnvelope (c : Client) (r : HttpResponse) :
    ((httpResponseBodySniffer c r).1).errorEnvelope = r.errorEnvelope := by
  unfold httpResponseBodySniffer
  split
  · rfl
  · cases hb : r.body with
    | none => rfl
    | some b =>
      by_cases hcl : r.contentLength = 0 <;> simp [hcl]

@[simp] lemma respSniffer_check (c : Client) (r : HttpResponse) :
    checkErrorInResponse ((httpResponseBodySniffer c r).1) = checkErrorInResponse r := by
  unfold checkErrorInResponse
  rw [respSniffer_statusCode, respSniffer_errorEnvelope]

@[simp] lemma reqSniffer_header (c : Client) (r : HttpRequest) :
    ((httpRequestBodySniffer c r).1).header = r.header := by
  unfold httpRequestBodySniffer
  split
  · rfl
  · cases hb : r.body with
    | none => rfl
    | some b => rfl

@[simp] lemma reqSniffer_method (c : Client) (r : HttpRequest) :
    ((httpRequestBodySniffer c r).1).method = r.method := by
  unfold httpRequestBodySniffer
  split
  · rfl
  · cases hb : r.body with
    | none => rfl
    | some b => rfl

lemma buildRequest_header (c : Client) (method apiURL : String) (body : Option BodyStream)
    (computed : List (String × String)) :
    (buildRequest c method apiURL body computed).header = setAll (setAll [] computed) c.headers := by
  unfold buildRequest
  rw [reqSniffer_header]

lemma headerGet_headerSet_self (h : HeaderMap) (k v : String) :
    headerGet (headerSet h k v) k = some v := by
  simp [headerSet, headerGet]

lemma headerGet_filter_ne (h : HeaderMap) (k q : String) (hne : q ≠ k) :
    headerGet (List.filter (fun p => p.1 ≠ k) h) q = headerGet h q := by
  induction h with
  | nil => rfl
  | cons p rest ih =>
    simp only [ne_eq, decide_not] at ih
    by_cases hp : p.1 = k
    · simp [List.filter_cons, hp, headerGet, Ne.symm hne, ih]
    · simp [List.filter_cons, hp, headerGet, ih]

lemma headerGet_headerSet_ne (h : HeaderMap) (k v q : String) (hne : q ≠ k) :
    headerGet (headerSet h k v) q = headerGet h q := by
  rw [headerSet, headerGet, if_neg (fun e => hne e.symm)]
  exact headerGet_filter_ne h k q hne

lemma headerGet_setAll_not_mem (entries : List (String × String)) (h : HeaderMap) (k : String)
    (hk : ∀ p ∈ entries, p.1 ≠ k) :
    headerGet (setAll h entries) k = headerGet h k := by
  induction entries generalizing h with
  | nil => rfl
  | cons p rest ih =>
    have h1 : headerGet (setAll (headerSet h p.1 p.2) rest) k
        = headerGet (headerSet h p.1 p.2) k :=
      ih (headerSet h p.1 p.2) (fun q hq => hk q (List.mem_cons_of_mem p hq))
    have h2 : headerGet (headerSet h p.1 p.2) k = headerGet h k :=
      headerGet_headerSet_ne h p.1 p.2 k (Ne.symm (hk p (List.mem_cons_self p rest)))
    exact h1.trans h2

lemma headerGet_setAll_mem (entries : List (String × String)) (h : HeaderMap) (k v : String)
    (hnd : (entries.map Prod.fst).Nodup) (hmem : (k, v) ∈ entries) :
    headerGet (setAll h entries) k = some v := by
  induction entries generalizing h with
  | nil => cases hmem
  | cons p rest ih =>
    rw [List.map_cons, List.nodup_cons] at hnd
    rcases List.mem_cons.mp hmem with heq | hmem2
    · have hk1 : p.1 = k := by rw [← heq]
      have hv : p.2 = v := by rw [← heq]
      have hnotin : ∀ q ∈ rest, q.1 ≠ k := by
        intro q hq e
        have hmm : q.1 ∈ List.map Prod.fst rest := List.mem_map_of_mem Prod.fst hq
        rw [e, ← hk1] at hmm
        exact hnd.1 hmm
      have h1 : headerGet (setAll (headerSet h p.1 p.2) rest) k
          = headerGet (headerSet h p.1 p.2) k :=
        headerGet_setAll_not_mem rest (headerSet h p.1 p.2) k hnotin
      have h2 : headerGet (headerSet h p.1 p.2) k = some v := by
        rw [hk1, hv]
        exact headerGet_headerSet_self h k v
      exact h1.trans h2
    · exact ih (headerSet h p.1 p.2) hnd.2 hmem2

lemma transport_events (c : Client) (t : TransportResult) :
    (Do c t).events =
      match c.requestCallback, transportResponse t with
      | some _, some r => [Event.requestCallbackCall r.statusCode r.header]
      | _, _ => [] := by
  cases t with
  | success r =>
    cases hcb : c.requestCallback <;>
      simp [Do, transportResponse, hcb]
  | failure r? e =>
    cases r? with
    | none => cases hcb : c.requestCallback <;> simp [Do, transportResponse, hcb]
    | some r => cases hcb : c.requestCallback <;> simp [Do, transportResponse, hcb]

/-! Concrete fixtures used by witnesses and counterexamples. -/

/-- An environment in which URL parsing and request allocation succeed and
the token-issuance call returns a fresh token. -/
def envOk : NewReqEnv :=
  { parseOk := true, newRequestOk := true, genToken := .ok ("new-token", 500) }

/-- A client holding an empty but unexpired token, with a token-expired
callback registered. -/
def cbClient : Client :=
  { auth := { secret := "sec", token := "", expiry := 100 }
    headers := []
    tokenExpiredCallback := some false
    requestCallback := none
    debug := false }

/-- A client holding an expired token, with a token-expired callback
registered. -/
def expClient : Client :=
  { auth := { secret := "sec", token := "old", expiry := 0 }
    headers := []
    tokenExpiredCallback := some true
    requestCallback := none
    debug := false }

/-! Claim C1. -/

/-- C1 counterexample: with an empty but unexpired token and a registered
token-expired callback, `NewRequest` regenerates the token and returns a
request, yet the callback fires zero times — refuting the claim that the
callback fires exactly once whenever the held token is empty or expired. -/
theorem newRequest_empty_token_callback_skipped :
    cbClient.tokenExpiredCallback.isSome = true ∧
    cbClient.auth.token = "" ∧
    TokenExpired cbClient 0 = false ∧
    exceptOk (NewRequest cbClient 0 envOk "GET" "Foo" none).result = true ∧
    (NewRequest cbClient 0 envOk "GET" "Foo" none).events.count Event.generateTokenCall = 1 ∧
    (NewRequest cbClient 0 envOk "GET" "Foo" none).events.count
      Event.tokenExpiredCallbackCall = 0 := by
  decide

/-- C1 (amended): for every `NewRequest` call to a non-token endpoint that
reaches the token check, if the held token is empty or expired then exactly
one `GenerateToken` call occurs; the token-expired callback — when
registered — fires exactly once, before regeneration, precisely when the
held token is expired (it does not fire for a merely empty, unexpired
token); regeneration failure aborts construction with that error, and on
success a request is produced. -/
theorem newRequest_regenerates_once (c : Client) (now : Int) (env : NewReqEnv)
    (method apiURL : String) (body : Option BodyStream)
    (hp : env.parseOk = true) (hn : env.newRequestOk = true)
    (ht : apiURL ≠ apiTokens)
    (hneed : c.auth.token = "" ∨ TokenExpired c now = true) :
    (NewRequest c now env method apiURL body).events.count Event.generateTokenCall = 1 ∧
    (NewRequest c now env method apiURL body).events.count Event.tokenExpiredCallbackCall
      = (if c.tokenExpiredCallback.isSome ∧ TokenExpired c now = true then 1 else 0) ∧
    (NewRequest c now env method apiURL body).events =
      (if c.tokenExpiredCallback.isSome ∧ TokenExpired c now = true
        then [Event.tokenExpiredCallbackCall] else []) ++ [Event.generateTokenCall] ∧
    (∀ e, env.genToken = .error e →
      (NewRequest c now env method apiURL body).result = .error e) ∧
    (∀ tok exp, env.genToken = .ok (tok, exp) →
      exceptOk (NewRequest c now env method apiURL body).result = true) := by
  have hpb : ¬ env.parseOk = false := by simp [hp]
  have hnb : ¬ env.newRequestOk = false := by simp [hn]
  cases hg : env.genToken with
  | error e =>
    by_cases hcb : c.tokenExpiredCallback.isSome ∧ TokenExpired c now = true <;>
      simp [NewRequest, hpb, hnb, ht, hneed, hcb, hg, exceptOk]
  | ok pr =>
    obtain ⟨tok, exp⟩ := pr
    by_cases hcb : c.tokenExpiredCallback.isSome ∧ TokenExpired c now = true <;>
      simp [NewRequest, hpb, hnb, ht, hneed, hcb, hg, exceptOk]

/-- C1 witness: a client with an expired token and a registered callback
regenerates exactly once and fires the callback exactly once, before the
regeneration, and the request is produced. -/
theorem newRequest_regenerates_once_witness :
    (NewRequest expClient 5 envOk "GET" "Foo" none).events.count Event.generateTokenCall = 1 ∧
    (NewRequest expClient 5 envOk "GET" "Foo" none).events.count
      Event.tokenExpiredCallbackCall = 1 ∧
    (NewRequest expClient 5 envOk "GET" "Foo" none).events
      = [Event.tokenExpiredCallbackCall, Event.generateTokenCall] ∧
    exceptOk (NewRequest expClient 5 envOk "GET" "Foo" none).result = true := by
  have hcond : expClient.tokenExpiredCallback.isSome ∧ TokenExpired expClient 5 = true :=
    ⟨by decide, by decide⟩
  have T := newRequest_regenerates_once expClient 5 envOk "GET" "Foo" none
    (by decide) (by decide) (by decide) (Or.inr hcond.2)
  refine ⟨T.1, ?_, ?_, T.2.2.2.2 "new-token" 500 rfl⟩
  · have h := T.2.1
    rw [if_pos hcond] at h
    exact h
  · have h := T.2.2.1
    rw [if_pos hcond] at h
    exact h

lemma newRequest_ok_shape (c : Client) (now : Int) (env : NewReqEnv) (method apiURL : String)
    (body : Option BodyStream) (req : HttpRequest)
    (hok : (NewRequest c now env method apiURL body).result = .ok req) :
    ∃ computed : List (String × String),
      req.header = setAll (setAll [] computed) c.headers ∧
      (computed.map Prod.fst).Nodup ∧
      ("Method", method) ∈ computed ∧
      ("Accept", "application/json") ∈ computed ∧
      (body.isSome = true → ("Content-Type", "application/json") ∈ computed) ∧
      (apiURL = apiTokens →
        ("X-LW-UAKS", c.auth.secret) ∈ computed ∧ ∀ p ∈ computed, p.1 ≠ "Authorization") ∧
      (apiURL ≠ apiTokens →
        ("Authorization", (NewRequest c now env method apiURL body).client.auth.token) ∈ computed ∧
        ∀ p ∈ computed, p.1 ≠ "X-LW-UAKS") := by
  by_cases hp : env.parseOk = false
  · simp [NewRequest, hp] at hok
  · by_cases hn : env.newRequestOk = false
    · simp [NewRequest, hp, hn] at hok
    · by_cases ht : apiURL = apiTokens
      · simp [NewRequest, hp, hn, ht] at hok
        subst hok
        refine ⟨baseHeaders method ++ ("X-LW-UAKS", c.auth.secret)
          :: contentTypeHeader body, ?_, ?_, ?_, ?_, ?_, ?_, ?_⟩
        · exact buildRequest_header c method apiTokens body _
        · cases body <;> simp [baseHeaders, contentTypeHeader]
        · simp [baseHeaders]
        · simp [baseHeaders]
        · intro hb
          cases body <;> simp_all [contentTypeHeader]
        · intro _
          constructor
          · simp
          · intro p hpm
            cases body with
            | none =>
              simp [baseHeaders, contentTypeHeader] at hpm
              rcases hpm with h | h | h <;> simp [h]
            | some b =>
              simp [baseHeaders, contentTypeHeader] at hpm
              rcases hpm with h | h | h | h <;> simp [h]
        · intro hne
          exact absurd ht hne
      · by_cases hneed : c.auth.token = "" ∨ TokenExpired c now = true
        · cases hg : env.genToken with
          | error e => simp [NewRequest, hp, hn, ht, hneed, hg] at hok
          | ok pr =>
            obtain ⟨tok, exp⟩ := pr
            have hcl : (NewRequest c now env method apiURL body).client
                = { c with auth := { c.auth with token := tok, expiry := exp } } := by
              simp [NewRequest, hp, hn, ht, hneed, hg]
            simp [NewRequest, hp, hn, ht, hneed, hg] at hok
            subst hok
            refine ⟨baseHeaders method ++ ("Authorization", tok)
              :: contentTypeHeader body, ?_, ?_, ?_, ?_, ?_, ?_, ?_⟩
            · exact buildRequest_header _ method apiURL body _
            · cases body <;> simp [baseHeaders, contentTypeHeader]
            · simp [baseHeaders]
            · simp [baseHeaders]
            · intro hb
              cases body <;> simp_all [contentTypeHeader]
            · intro he
              exact absurd he ht
            · intro _
              constructor
              · rw [hcl]
                simp
              · intro p hpm
                cases body with
                | none =>
                  simp [baseHeaders, contentTypeHeader] at hpm
                  rcases hpm with h | h | h <;> simp [h]
                | some b =>
                  simp [baseHeaders, contentTypeHeader] at hpm
                  rcases hpm with h | h | h | h <;> simp [h]
        · have hcl : (NewRequest c now env method apiURL body).client = c := by
            simp [NewRequest, hp, hn, ht, hneed]
          simp [NewRequest, hp, hn, ht, hneed] at hok
          subst hok
          refine ⟨baseHeaders method ++ ("Authorization", c.auth.token)
            :: contentTypeHeader body, ?_, ?_, ?_, ?_, ?_, ?_, ?_⟩
          · exact buildRequest_header c method apiURL body _
          · cases body <;> simp [baseHeaders, contentTypeHeader]
          · simp [baseHeaders]
          · simp [baseHeaders]
          · intro hb
            cases body <;> simp_all [contentTypeHeader]
          · intro he
            exact absurd he ht
          · intro _
            constructor
            · rw [hcl]
              simp
            · intro p hpm
              cases body with
              | none =>
                simp [baseHeaders, contentTypeHeader] at hpm
                rcases hpm with h | h | h <;> simp [h]
              | some b =>
                simp [baseHeaders, contentTypeHeader] at hpm
                rcases hpm with h | h | h | h <;> simp [h]

/-- A client whose global headers share the key `Accept` with a computed
header. -/
def ovClient : Client :=
  { auth := { secret := "sec", token := "tok", expiry := 100 }
    headers := [("Accept", "text/plain")]
    tokenExpiredCallback := none
    requestCallback := none
    debug := false }

/-- A client whose global headers hold only a user-agent identifier, the
default configuration. -/
def uaClient : Client :=
  { auth := { secret := "sec", token := "tok", expiry := 100 }
    headers := [("User-Agent", "terraform-provider")]
    tokenExpiredCallback := none
    requestCallback := none
    debug := false }

/-! Claim C2. -/

/-- C2 counterexample: a caller-configured global header with the key
`Accept` does override the computed `Accept: application/json` header —
global headers are applied after the computed ones and `Header.Set`
replaces, so the computed value is not the one present in the final
request. -/
theorem newRequest_global_header_overrides :
    resultHeader (NewRequest ovClient 0 envOk "GET" "Foo" none) "Accept" = some "text/plain" ∧
    resultHeader (NewRequest ovClient 0 envOk "GET" "Foo" none) "Accept"
      ≠ some "application/json" := by
  decide

/-- C2 (amended): `NewRequest` applies the computed headers first and the
caller-configured global headers after, so a global entry sharing a key with
a computed header overrides the computed value; whenever the global-header
map does not contain a computed key, the computed value is the one present
in the final request, and every global entry (under distinct global keys) is
present with its own value. -/
theorem newRequest_header_precedence (c : Client) (now : Int) (env : NewReqEnv)
    (method apiURL : String) (body : Option BodyStream) (req : HttpRequest)
    (hok : (NewRequest c now env method apiURL body).result = .ok req) :
    (∀ k v, (c.headers.map Prod.fst).Nodup → (k, v) ∈ c.headers →
      headerGet req.header k = some v) ∧
    ((∀ p ∈ c.headers, p.1 ≠ "Method") → headerGet req.header "Method" = some method) ∧
    ((∀ p ∈ c.headers, p.1 ≠ "Accept") →
      headerGet req.header "Accept" = some "application/json") ∧
    (body.isSome = true → (∀ p ∈ c.headers, p.1 ≠ "Content-Type") →
      headerGet req.header "Content-Type" = some "application/json") ∧
    (apiURL ≠ apiTokens → (∀ p ∈ c.headers, p.1 ≠ "Authorization") →
      headerGet req.header "Authorization"
        = some (NewRequest c now env method apiURL body).client.auth.token) := by
  obtain ⟨computed, hh, hnd, hm, ha, hct, _htok, hnon⟩ :=
    newRequest_ok_shape c now env method apiURL body req hok
  refine ⟨?_, ?_, ?_, ?_, ?_⟩
  · intro k v hgnd hmem
    rw [hh]
    exact headerGet_setAll_mem c.headers (setAll [] computed) k v hgnd hmem
  · intro hno
    rw [hh, headerGet_setAll_not_mem c.headers _ _ hno]
    exact headerGet_setAll_mem computed [] "Method" method hnd hm
  · intro hno
    rw [hh, headerGet_setAll_not_mem c.headers _ _ hno]
    exact headerGet_setAll_mem computed [] "Accept" "application/json" hnd ha
  · intro hb hno
    rw [hh, headerGet_setAll_not_mem c.headers _ _ hno]
    exact headerGet_setAll_mem computed [] "Content-Type" "application/json" hnd (hct hb)
  · intro hne hno
    rw [hh, headerGet_setAll_not_mem c.headers _ _ hno]
    exact headerGet_setAll_mem computed [] "Authorization" _ hnd (hnon hne).1

/-- The request built by `NewRequest` for `uaClient` against a plain
endpoint with no body. -/
def uaRequest : HttpRequest :=
  { method := "GET", url := "Foo"
    header := [("User-Agent", "terraform-provider"), ("Authorization", "tok"),
      ("Accept", "application/json"), ("Method", "GET")]
    body := none }

/-- C2 witness: with the default user-agent-only global headers, the
computed headers survive and the global entry is present. -/
theorem newRequest_header_precedence_witness :
    headerGet uaRequest.header "User-Agent" = some "terraform-provider" ∧
    headerGet uaRequest.header "Method" = some "GET" ∧
    headerGet uaRequest.header "Accept" = some "application/json" ∧
    headerGet uaRequest.header "Authorization"
      = some (NewRequest uaClient 0 envOk "GET" "Foo" none).client.auth.token := by
  have T := newRequest_header_precedence uaClient 0 envOk "GET" "Foo" none uaRequest (by decide)
  exact ⟨T.1 "User-Agent" "terraform-provider" (by decide) (by decide),
    T.2.1 (by decide), T.2.2.1 (by decide), T.2.2.2.2 (by decide) (by decide)⟩

/-! Claim C6. -/

/-- C6: a request built for the token-issuance endpoint carries the raw
secret in the dedicated `X-LW-UAKS` header, carries no `Authorization`
header (given that the caller's global headers do not themselves use those
two keys), and its construction performs no token-regeneration call. -/
theorem newRequest_token_endpoint_secret (c : Client) (now : Int) (env : NewReqEnv)
    (method : String) (body : Option BodyStream)
    (hp : env.parseOk = true) (hn : env.newRequestOk = true)
    (hga : ∀ p ∈ c.headers, p.1 ≠ "Authorization")
    (hgs : ∀ p ∈ c.headers, p.1 ≠ "X-LW-UAKS") :
    (NewRequest c now env method apiTokens body).events = [] ∧
    Event.generateTokenCall ∉ (NewRequest c now env method apiTokens body).events ∧
    exceptOk (NewRequest c now env method apiTokens body).result = true ∧
    resultHeader (NewRequest c now env method apiTokens body) "X-LW-UAKS"
      = some c.auth.secret ∧
    resultHeader (NewRequest c now env method apiTokens body) "Authorization" = none := by
  have hpb : ¬ env.parseOk = false := by simp [hp]
  have hnb : ¬ env.newRequestOk = false := by simp [hn]
  have hres : NewRequest c now env method apiTokens body
      = ⟨.ok (buildRequest c method apiTokens body
          (baseHeaders method ++ ("X-LW-UAKS", c.auth.secret) :: contentTypeHeader body)),
        c, []⟩ := by
    simp [NewRequest, hpb, hnb]
  have hnd : ((baseHeaders method
      ++ ("X-LW-UAKS", c.auth.secret) :: contentTypeHeader body).map Prod.fst).Nodup := by
    cases body <;> simp [baseHeaders, contentTypeHeader]
  have hnauth : ∀ p ∈ baseHeaders method
      ++ ("X-LW-UAKS", c.auth.secret) :: contentTypeHeader body, p.1 ≠ "Authorization" := by
    intro p hpm
    cases body with
    | none =>
      simp [baseHeaders, contentTypeHeader] at hpm
      rcases hpm with h | h | h <;> simp [h]
    | some b =>
      simp [baseHeaders, contentTypeHeader] at hpm
      rcases hpm with h | h | h | h <;> simp [h]
  rw [hres]
  refine ⟨rfl, by simp, rfl, ?_, ?_⟩
  · show headerGet (buildRequest c method apiTokens body _).header "X-LW-UAKS"
      = some c.auth.secret
    rw [buildRequest_header, headerGet_setAll_not_mem c.headers _ _ hgs]
    exact headerGet_setAll_mem _ [] "X-LW-UAKS" c.auth.secret hnd (by simp)
  · show headerGet (buildRequest c method apiTokens body _).header "Authorization" = none
    rw [buildRequest_header, headerGet_setAll_not_mem c.headers _ _ hga,
      headerGet_setAll_not_mem _ _ _ hnauth]
    rfl

/-- C6 witness: the token-endpoint request for the default client carries
the secret header and no bearer token, with no regeneration call. -/
theorem newRequest_token_endpoint_secret_witness :
    (NewRequest uaClient 0 envOk "GET" apiTokens none).events = [] ∧
    Event.generateTokenCall ∉ (NewRequest uaClient 0 envOk "GET" apiTokens none).events ∧
    exceptOk (NewRequest uaClient 0 envOk "GET" apiTokens none).result = true ∧
    resultHeader (NewRequest uaClient 0 envOk "GET" apiTokens none) "X-LW-UAKS"
      = some uaClient.auth.secret ∧
    resultHeader (NewRequest uaClient 0 envOk "GET" apiTokens none) "Authorization" = none :=
  newRequest_token_endpoint_secret uaClient 0 envOk "GET" none
    (by decide) (by decide) (by decide) (by decide)

/-- The body-replacement stream produced by `sniffBody` is absent whenever
reading or closing the original stream fails. -/
lemma sniffBody_fail_none (b : BodyStream) (hb : b.readErr = true ∨ b.closeErr = true) :
    (sniffBody b).1 = none := by
  cases hr : b.readErr with
  | true => simp [sniffBody, readAll, hr]
  | false =>
    rcases hb with h | h
    · rw [hr] at h
      cases h
    · simp [sniffBody, readAll, closeStream, hr, h]

/-- A 204 response used by witnesses. -/
def ncResponse : HttpResponse :=
  { statusCode := 204, header := [], body := none, contentLength := 0, errorEnvelope := false }

/-- A 500 response with a readable body, used by witnesses. -/
def errResponse : HttpResponse :=
  { statusCode := 500, header := [], body := some (nopCloser "oops"), contentLength := 4
    errorEnvelope := false }

/-- A 200 response with a readable body, used by witnesses. -/
def okResponse : HttpResponse :=
  { statusCode := 200, header := [("Server", "nginx")], body := some (nopCloser "ok")
    contentLength := 2, errorEnvelope := false }

/-- A client with a request callback registered that returns an error. -/
def cbDoClient : Client :=
  { auth := { secret := "sec", token := "tok", expiry := 100 }
    headers := []
    tokenExpiredCallback := none
    requestCallback := some true
    debug := false }

/-- A JSON decoder stand-in that succeeds with the raw bytes. -/
def decodeId : String → Except String String := fun s => .ok s

/-! Claim C3. -/

/-- C3: for every response with HTTP status 204, `DoDecoder` returns the
response from `Do` together with a nil error, leaves any provided
destination unmodified regardless of its type, and performs no decode or
copy attempt. -/
theorem doDecoder_204_no_decode (c : Client) (r : HttpResponse)
    (decode : String → Except String String) (v : Dest)
    (h204 : r.statusCode = 204) :
    (DoDecoder c (.success r) decode v).response = some ((httpResponseBodySniffer c r).1) ∧
    (DoDecoder c (.success r) decode v).err = none ∧
    (DoDecoder c (.success r) decode v).dest = v ∧
    Event.decodeAttempt ∉ (DoDecoder c (.success r) decode v).events ∧
    Event.copyToWriter ∉ (DoDecoder c (.success r) decode v).events := by
  cases hcb : c.requestCallback <;>
    simp [DoDecoder, Do, h204, hcb]

/-- C3 witness: decoding a concrete 204 response leaves a value destination
untouched with no error and no decode attempt. -/
theorem doDecoder_204_no_decode_witness :
    (DoDecoder uaClient (.success ncResponse) decodeId (Dest.value none)).response
      = some ((httpResponseBodySniffer uaClient ncResponse).1) ∧
    (DoDecoder uaClient (.success ncResponse) decodeId (Dest.value none)).err = none ∧
    (DoDecoder uaClient (.success ncResponse) decodeId (Dest.value none)).dest
      = Dest.value none ∧
    Event.decodeAttempt ∉ (DoDecoder uaClient (.success ncResponse) decodeId
      (Dest.value none)).events ∧
    Event.copyToWriter ∉ (DoDecoder uaClient (.success ncResponse) decodeId
      (Dest.value none)).events :=
  doDecoder_204_no_decode uaClient ncResponse decodeId (Dest.value none) rfl

/-! Claim C4. -/

/-- C4: for every non-204 response on which the API-level error check
reports an error, `DoDecoder` returns that error together with the response
and leaves the destination completely unmodified, attempting no decode or
copy. -/
theorem doDecoder_api_error_no_decode (c : Client) (r : HttpResponse)
    (decode : String → Except String String) (v : Dest) (e : String)
    (h204 : r.statusCode ≠ 204)
    (herr : checkErrorInResponse r = some e) :
    (DoDecoder c (.success r) decode v).err = some e ∧
    (DoDecoder c (.success r) decode v).dest = v ∧
    (DoDecoder c (.success r) decode v).response = some ((httpResponseBodySniffer c r).1) ∧
    Event.decodeAttempt ∉ (DoDecoder c (.success r) decode v).events ∧
    Event.copyToWriter ∉ (DoDecoder c (.success r) decode v).events := by
  cases hcb : c.requestCallback <;>
    simp [DoDecoder, Do, h204, herr, hcb]

/-- C4 witness: decoding a concrete 500 response returns the API error and
leaves the value destination holding its previous contents. -/
theorem doDecoder_api_error_no_decode_witness :
    (DoDecoder uaClient (.success errResponse) decodeId (Dest.value (some "old"))).err
      = some "api error: non-2xx status" ∧
    (DoDecoder uaClient (.success errResponse) decodeId (Dest.value (some "old"))).dest
      = Dest.value (some "old") ∧
    (DoDecoder uaClient (.success errResponse) decodeId (Dest.value (some "old"))).response
      = some ((httpResponseBodySniffer uaClient errResponse).1) ∧
    Event.decodeAttempt ∉ (DoDecoder uaClient (.success errResponse) decodeId
      (Dest.value (some "old"))).events ∧
    Event.copyToWriter ∉ (DoDecoder uaClient (.success errResponse) decodeId
      (Dest.value (some "old"))).events := by
  have T := doDecoder_api_error_no_decode uaClient errResponse decodeId
    (Dest.value (some "old")) "api error: non-2xx status" (by decide) (by decide)
  exact ⟨T.1, T.2.1, T.2.2.1, T.2.2.2.1, T.2.2.2.2⟩

/-! Claim C5. -/

/-- C5: whenever the transport completes with a response, `Do` invokes a
registered request callback with that response's status code and headers
regardless of the HTTP status, and the callback's error outcome never
changes the response or error `Do` returns. -/
theorem do_callback_always (c : Client) (t : TransportResult) (r : HttpResponse) (b : Bool)
    (hcb : c.requestCallback = some b)
    (hr : transportResponse t = some r) :
    (Do c t).events = [Event.requestCallbackCall r.statusCode r.header] ∧
    (∀ e : Bool, (Do { c with requestCallback := some e } t).response = (Do c t).response ∧
      (Do { c with requestCallback := some e } t).err = (Do c t).err) := by
  constructor
  · rw [transport_events, hcb, hr]
  · intro e
    cases t with
    | success r0 => exact ⟨rfl, rfl⟩
    | failure r? e0 => exact ⟨rfl, rfl⟩

/-- C5 witness: a registered erring callback is invoked on a 200 response
and changes nothing in what `Do` returns. -/
theorem do_callback_always_witness :
    (Do cbDoClient (.success okResponse)).events
      = [Event.requestCallbackCall okResponse.statusCode okResponse.header] ∧
    (Do { cbDoClient with requestCallback := some false } (.success okResponse)).response
      = (Do cbDoClient (.success okResponse)).response ∧
    (Do { cbDoClient with requestCallback := some false } (.success okResponse)).err
      = (Do cbDoClient (.success okResponse)).err := by
  have T := do_callback_always cbDoClient (.success okResponse) okResponse true rfl rfl
  exact ⟨T.1, (T.2 false).1, (T.2 false).2⟩

/-! Claim C9. -/

/-- C9: `Do` invokes the request callback exactly when the transport
returned a non-nil response — a network failure with no response skips it
entirely, while a response accompanied by a transport error still triggers
it. -/
theorem do_callback_iff_response (c : Client) (t : TransportResult) :
    ((Do c t).events ≠ [] ↔
      (c.requestCallback.isSome = true ∧ (transportResponse t).isSome = true)) ∧
    (∀ r, transportResponse t = some r → c.requestCallback.isSome = true →
      (Do c t).events = [Event.requestCallbackCall r.statusCode r.header]) := by
  constructor
  · rw [transport_events]
    cases hcb : c.requestCallback <;> cases hr : transportResponse t <;> simp
  · intro r hr hcb2
    rw [transport_events, hr]
    cases hcbv : c.requestCallback with
    | none =>
      rw [hcbv] at hcb2
      simp at hcb2
    | some b => rfl

/-- C9 witness: a transport failure that still carries a response invokes
the callback with that response's status and headers. -/
theorem do_callback_iff_response_witness :
    ((Do cbDoClient (.failure (some okResponse) "net down")).events ≠ [] ↔
      (cbDoClient.requestCallback.isSome = true ∧
        (transportResponse (.failure (some okResponse) "net down")).isSome = true)) ∧
    (Do cbDoClient (.failure (some okResponse) "net down")).events
      = [Event.requestCallbackCall okResponse.statusCode okResponse.header] := by
  have T := do_callback_iff_response cbDoClient (.failure (some okResponse) "net down")
  exact ⟨T.1, T.2 okResponse rfl rfl⟩

/-! Claim C7. -/

/-- C7: whenever `sniffBody` succeeds, the returned text equals the full
byte content of the original body and the returned replacement stream reads
back exactly those same bytes. -/
theorem sniffBody_roundtrip (b nb : BodyStream) (s : String)
    (h : sniffBody b = (some nb, s)) :
    s = b.content ∧ nb.content = b.content ∧ readAll nb = .ok b.content := by
  cases hr : b.readErr with
  | true => simp [sniffBody, readAll, hr] at h
  | false =>
    cases hc : b.closeErr with
    | true => simp [sniffBody, readAll, closeStream, hr, hc] at h
    | false =>
      simp [sniffBody, readAll, closeStream, hr, hc, nopCloser] at h
      obtain ⟨h1, h2⟩ := h
      subst h2
      rw [← h1]
      exact ⟨rfl, rfl, by simp [readAll, h1]⟩

/-- C7 witness: sniffing a concrete healthy body returns its bytes and a
stream reading back those same bytes. -/
theorem sniffBody_roundtrip_witness :
    "abc" = (nopCloser "abc").content ∧
    (nopCloser "abc").content = (nopCloser "abc").content ∧
    readAll (nopCloser "abc") = .ok (nopCloser "abc").content :=
  sniffBody_roundtrip (nopCloser "abc") (nopCloser "abc") "abc" rfl

/-! Claim C10. -/

/-- C10: in debug mode, when `sniffBody` fails to read or close a request or
response body, the sniffers replace that body with an absent (`nil`) stream,
so downstream consumers no longer observe the original bytes. -/
theorem sniffer_failure_drops_body (c : Client) (req : HttpRequest) (resp : HttpResponse)
    (brq brs : BodyStream)
    (hdbg : c.debug = true)
    (hreq : req.body = some brq) (hrqe : brq.readErr = true ∨ brq.closeErr = true)
    (hresp : resp.body = some brs) (hcl : ¬ resp.contentLength = 0)
    (hrse : brs.readErr = true ∨ brs.closeErr = true) :
    (httpRequestBodySniffer c req).1.body = none ∧
    (httpResponseBodySniffer c resp).1.body = none := by
  constructor
  · simp [httpRequestBodySniffer, debugMode, hdbg, hreq, sniffBody_fail_none brq hrqe]
  · simp [httpResponseBodySniffer, debugMode, hdbg, hresp, hcl,
      sniffBody_fail_none brs hrse]

/-- A debug-mode client. -/
def dbgClient : Client :=
  { auth := { secret := "sec", token := "tok", expiry := 100 }
    headers := []
    tokenExpiredCallback := none
    requestCallback := none
    debug := true }

/-- A request whose body fails on read. -/
def badReq : HttpRequest :=
  { method := "GET", url := "Foo", header := []
    body := some { content := "x", readErr := true, closeErr := false } }

/-- A response whose body fails on close. -/
def badResp : HttpResponse :=
  { statusCode := 200, header := []
    body := some { content := "y", readErr := false, closeErr := true }
    contentLength := 1, errorEnvelope := false }

/-- C10 witness: concrete failing bodies are dropped to `none` by both
sniffers in debug mode. -/
theorem sniffer_failure_drops_body_witness :
    (httpRequestBodySniffer dbgClient badReq).1.body = none ∧
    (httpResponseBodySniffer dbgClient badResp).1.body = none :=
  sniffer_failure_drops_body dbgClient badReq badResp
    { content := "x", readErr := true, closeErr := false }
    { content := "y", readErr := false, closeErr := true }
    rfl rfl (Or.inl rfl) rfl (by decide) (Or.inr rfl)

/-! Claim C8. -/

/-- C8: evaluating `RequestDecoder` at a transport result carrying a 500
response shows the error exit path returns without closing the response
body (the Go code defers `res.Body.Close()` only after the error-return
check), while the nil-error exit path does close it. -/
theorem requestDecoder_body_not_closed_on_error :
    (RequestDecoder uaClient 0 envOk (.success errResponse) decodeId
      "GET" "Foo" none Dest.vnil).err = some "api error: non-2xx status" ∧
    (transportResponse (.success errResponse)).isSome = true ∧
    (RequestDecoder uaClient 0 envOk (.success errResponse) decodeId
      "GET" "Foo" none Dest.vnil).bodyClosed = false ∧
    (RequestDecoder uaClient 0 envOk (.success okResponse) decodeId
      "GET" "Foo" none Dest.vnil).bodyClosed = true := by
  decide

end Lacework
